import Mathlib

/-!
Shallow embedding of flintrock/ec2.py (the EC2 control plane of flintrock).

Provider interactions are modelled explicitly: reads that refresh cluster
metadata take the provider's responses as an argument (a list of snapshots,
one per batched describe call), and side-effecting operations return a trace
of `EC2Action` values in the order the code issues them.  Python exceptions are
modelled with `Except` / explicit error results; Python dict keys that may be
absent are modelled with `Option`.
-/

deriving instance DecidableEq for Except

/-- Tag models one EC2 tag dict: a Key and a Value. -/
structure Tag where
  key : String
  value : String
  deriving DecidableEq, Repr

/-- Instance models a boto3 EC2 instance handle as the code reads it:
`instance.id`, `instance.state['Name']` (the cached state name), and
`instance.tags`. -/
structure Instance where
  id : String
  stateName : String
  tags : List Tag
  deriving DecidableEq, Repr

/-- EC2Cluster models the EC2Cluster entity: name, region, vpc_id, the master
instance and the list of slave instances (fields of `EC2Cluster.__init__`). -/
structure EC2Cluster where
  name : String
  region : String
  vpc_id : String
  master_instance : Instance
  slave_instances : List Instance
  deriving DecidableEq, Repr

/-- The `instances` property: `[self.master_instance] + self.slave_instances`,
master first. -/
def EC2Cluster.instances (c : EC2Cluster) : List Instance :=
  c.master_instance :: c.slave_instances

/-- The `state` property: the set of distinct instance states; if it is a
singleton, that state, otherwise the sentinel string `inconsistent`.  The
Python set of states is modelled as `List.dedup` of the state names (same
membership, no duplicates). -/
def EC2Cluster.state (c : EC2Cluster) : String :=
  match (c.instances.map Instance.stateName).dedup with
  | [s] => s
  | _ => "inconsistent"

/-- FlintrockException models the exceptions the code can raise:
`NothingToDo`, `ClusterInvalidState` (with attempted_command and state),
plain `Exception(message)`, and `KeyboardInterrupt`. -/
inductive FlintrockException where
  | nothingToDo (message : String)
  | clusterInvalidState (attempted_command : String) (state : String)
  | generic (message : String)
  | keyboardInterrupt
  deriving DecidableEq, Repr

/-- EC2Action models one boto3 call (or one call to a generic FlintrockCluster
hook) in the order the code issues them. -/
inductive EC2Action where
  | describeInstances (ids : List String)
  | startInstances (ids : List String)
  | stopInstances (ids : List String)
  | terminateInstances (ids : List String)
  | modifyInstanceGroups (id : String) (groups : List String)
  | describeSecurityGroups (groupName : String) (vpcId : String)
  | deleteSecurityGroup (groupName : String)
  | genericClusterStart
  | genericClusterStop
  | genericClusterDestroy
  deriving DecidableEq, Repr

/-- RunResult is the outcome of a (possibly looping) cluster operation: normal
return with the updated cluster, an exception, or a poll loop that is still
running when the supplied provider responses run out (the loops in the code
have no deadline). Each constructor carries the trace of actions issued. -/
inductive RunResult where
  | ok (c : EC2Cluster) (trace : List EC2Action)
  | err (e : FlintrockException) (trace : List EC2Action)
  | hang (trace : List EC2Action)
  deriving DecidableEq, Repr

/-- Trace of a RunResult, whatever the outcome. -/
def RunResult.trace : RunResult → List EC2Action
  | .ok _ tr => tr
  | .err _ tr => tr
  | .hang tr => tr

/-- The inner tag loop of `_get_cluster_master_slaves`, scanning one
instance's tags: a `flintrock-role`/`master` tag raises if a master is
already known, else records this instance as master and breaks out of the
tag loop; a `flintrock-role`/`slave` tag appends this instance to the slave
list and keeps scanning; every other tag is skipped. -/
def role_tag_scan (inst : Instance) (master : Option Instance)
    (slaves : List Instance) :
    List Tag → Except FlintrockException (Option Instance × List Instance)
  | [] => .ok (master, slaves)
  | t :: rest =>
    if t.key = "flintrock-role" then
      if t.value = "master" then
        match master with
        | some _ => .error (.generic "More than one master found.")
        | none => .ok (some inst, slaves)
      else if t.value = "slave" then
        role_tag_scan inst master (slaves ++ [inst]) rest
      else
        role_tag_scan inst master slaves rest
    else
      role_tag_scan inst master slaves rest

/-- The outer loop of `_get_cluster_master_slaves`, scanning each instance's
tags in turn and threading the (master, slaves) accumulator. -/
def instances_scan :
    List Instance → Option Instance → List Instance →
    Except FlintrockException (Option Instance × List Instance)
  | [], master, slaves => .ok (master, slaves)
  | i :: rest, master, slaves =>
    match role_tag_scan i master slaves i.tags with
    | .error e => .error e
    | .ok (m, s) => instances_scan rest m s

/-- Function `_get_cluster_master_slaves(instances)`: scan all instances, then raise
`No master found.` when no master was recorded, `No slaves found.` when the
slave list is empty, else return the pair. -/
def _get_cluster_master_slaves (instances : List Instance) :
    Except FlintrockException (Instance × List Instance) :=
  match instances_scan instances none [] with
  | .error e => .error e
  | .ok (master, slaves) =>
    match master with
    | none => .error (.generic "No master found.")
    | some m =>
      if slaves.isEmpty then .error (.generic "No slaves found.")
      else .ok (m, slaves)

/-- Method `wait_for_state(state)`: while some tracked instance's cached state
differs from the target, issue one batched describe for the tracked instance
ids, re-derive the master/slave split from the response with
`_get_cluster_master_slaves`, and re-check.  `env` supplies the provider's
response to each describe call in order; when it runs out while the loop
still polls, the result is `hang` (the loop has no deadline).  A raise from
`_get_cluster_master_slaves` propagates. -/
def EC2Cluster.wait_for_state (c : EC2Cluster) (state : String)
    (env : List (List Instance)) : RunResult :=
  if c.instances.all (fun i => i.stateName = state) then
    .ok c []
  else
    match env with
    | [] => .hang []
    | snap :: rest =>
      let act := EC2Action.describeInstances (c.instances.map Instance.id)
      match _get_cluster_master_slaves snap with
      | .error e => .err e [act]
      | .ok (m, s) =>
        match EC2Cluster.wait_for_state
            { c with master_instance := m, slave_instances := s } state rest with
        | .ok c2 tr => .ok c2 (act :: tr)
        | .err e tr => .err e (act :: tr)
        | .hang tr => .hang (act :: tr)

/-- Method `start_check`: raise `NothingToDo` when the aggregate state is already
`running`, `ClusterInvalidState` when it is anything other than `stopped`. -/
def EC2Cluster.start_check (c : EC2Cluster) : Except FlintrockException Unit :=
  if c.state = "running" then
    .error (.nothingToDo "Cluster is already running.")
  else if c.state ≠ "stopped" then
    .error (.clusterInvalidState "start" c.state)
  else
    .ok ()

/-- Method `stop_check`: raise `NothingToDo` when the aggregate state is already
`stopped`, `ClusterInvalidState` when it is anything other than `running`. -/
def EC2Cluster.stop_check (c : EC2Cluster) : Except FlintrockException Unit :=
  if c.state = "stopped" then
    .error (.nothingToDo "Cluster is already stopped.")
  else if c.state ≠ "running" then
    .error (.clusterInvalidState "stop" c.state)
  else
    .ok ()

/-- Method `start`: run `start_check` (any raise propagates before any call is
issued), then issue one batched start call for all instance ids, then block
on `wait_for_state('running')`, and finally call the generic
`FlintrockCluster.start` hook. -/
def EC2Cluster.start (c : EC2Cluster) (env : List (List Instance)) :
    RunResult :=
  match c.start_check with
  | .error e => .err e []
  | .ok _ =>
    let act := EC2Action.startInstances (c.instances.map Instance.id)
    match c.wait_for_state "running" env with
    | .ok c2 tr => .ok c2 (act :: tr ++ [EC2Action.genericClusterStart])
    | .err e tr => .err e (act :: tr)
    | .hang tr => .hang (act :: tr)

/-- Method `stop`: run `stop_check` (any raise propagates before any call is
issued), then call the generic `FlintrockCluster.stop` hook (`super().stop()`
comes FIRST in the code), then issue one batched stop call for all instance
ids, then block on `wait_for_state('stopped')`. -/
def EC2Cluster.stop (c : EC2Cluster) (env : List (List Instance)) :
    RunResult :=
  match c.stop_check with
  | .error e => .err e []
  | .ok _ =>
    let hook := EC2Action.genericClusterStop
    let act := EC2Action.stopInstances (c.instances.map Instance.id)
    match c.wait_for_state "stopped" env with
    | .ok c2 tr => .ok c2 (hook :: act :: tr)
    | .err e tr => .err e (hook :: act :: tr)
    | .hang tr => .hang (hook :: act :: tr)

/-- Method `destroy`: run `destroy_check` (a no-op guard: destroy is always
allowed), call the generic `FlintrockCluster.destroy` hook, look up the
`flintrock` base security group, reattach every instance to the base group
alone (one `modify_attribute` per instance), look up the cluster group
`flintrock-<name>`, delete it, and finally issue one batched terminate call
for all instances.  `base_group_id` is the id the base-group lookup
returns. -/
def EC2Cluster.destroy (c : EC2Cluster) (base_group_id : String) :
    List EC2Action :=
  EC2Action.genericClusterDestroy ::
  EC2Action.describeSecurityGroups "flintrock" c.vpc_id ::
  ((c.instances.map
      (fun i => EC2Action.modifyInstanceGroups i.id [base_group_id])) ++
    [EC2Action.describeSecurityGroups ("flintrock-" ++ c.name) c.vpc_id,
     EC2Action.deleteSecurityGroup ("flintrock-" ++ c.name),
     EC2Action.terminateInstances (c.instances.map Instance.id)])

/-- SpotRequest models one spot instance request dict as the poll loop reads
it: `SpotInstanceRequestId`, `State`, `Status.Code`, and the optional
`InstanceId`. -/
structure SpotRequest where
  id : String
  state : String
  statusCode : String
  instanceId : Option String
  deriving DecidableEq, Repr

/-- The spot polling loop of `launch`: while some request ids are pending,
take the next batched describe response (`polls` supplies them in order); if
any described request has state `failed`, raise an Error carrying the set of
distinct failure Status Codes (the Python set is modelled as `List.dedup`);
otherwise the requests with state `open` become the new pending set.  When
the pending set is empty the loop exits with the last described requests.
`none` means the loop is still polling when the supplied responses run
out. -/
def launch_spot_poll (polls : List (List SpotRequest))
    (spot_requests : List SpotRequest) (pending_request_ids : List String) :
    Option (Except (List String) (List SpotRequest)) :=
  match pending_request_ids with
  | [] => some (.ok spot_requests)
  | _ :: _ =>
    match polls with
    | [] => none
    | poll :: rest =>
      let failed_requests := poll.filter (fun r => r.state = "failed")
      if failed_requests.isEmpty then
        launch_spot_poll rest poll
          ((poll.filter (fun r => r.state = "open")).map SpotRequest.id)
      else
        some (.error (failed_requests.map SpotRequest.statusCode).dedup)

/-- The `except (Exception, KeyboardInterrupt)` handler at the end of
`launch`: the cleanup (cancel still-open spot requests, re-describe, prompt,
terminate) runs as a sequence of fallible calls; if one of them raises, that
exception propagates out of the handler; only when all of them complete does
the bare `raise` re-raise the original exception. -/
def launch_cleanup_reraise (original : FlintrockException)
    (cleanup_calls : List (Except FlintrockException Unit)) :
    FlintrockException :=
  match cleanup_calls.findSome?
      (fun s => match s with | .error e => some e | .ok _ => none) with
  | some e => e
  | none => original

/-- Ebs models the `Ebs` dict of a block device mapping: `VolumeSize`,
`VolumeType`, and the `Encrypted` key (`none` models an absent key, so that
`del` on an absent key is a KeyError). -/
structure Ebs where
  volumeSize : Nat
  volumeType : String
  encrypted : Option Bool
  deriving DecidableEq, Repr

/-- ImageDevice models one entry of `image.block_device_mappings`:
`DeviceName` plus the optional `Ebs` dict. -/
structure ImageDevice where
  deviceName : String
  ebs : Option Ebs
  deriving DecidableEq, Repr

/-- Image models the fields of the AMI that `get_ec2_block_device_mappings`
reads: `root_device_type`, `root_device_name`, `block_device_mappings`. -/
structure Image where
  root_device_type : String
  root_device_name : String
  block_device_mappings : List ImageDevice
  deriving DecidableEq, Repr

/-- BlockDeviceMapping models one entry of the returned mapping list: either
the (possibly resized) root EBS device, or an ephemeral device dict with
`VirtualName` and `DeviceName`. -/
inductive BlockDeviceMapping where
  | ebsDevice (deviceName : String) (ebs : Ebs)
  | ephemeral (virtualName : String) (deviceName : String)
  deriving DecidableEq, Repr

/-- The 12 ephemeral device entries always appended: `ephemeral0..11` mapped
to `/dev/sdb../dev/sdm` (`string.ascii_lowercase[i + 1]`). -/
def ephemeral_devices : List BlockDeviceMapping :=
  (List.range 12).map (fun i =>
    BlockDeviceMapping.ephemeral
      ("ephemeral" ++ toString i)
      ("/dev/sd" ++ (Char.ofNat (97 + (i + 1))).toString))

/-- Function `get_ec2_block_device_mappings(ami, region)` applied to the described
image: when the image is EBS-backed, pick the first block device whose name
equals the root device name (IndexError if there is none), raise its size to
the 30 GB floor and force `gp2` when the declared size is below the floor,
unconditionally `del` the `Encrypted` key (KeyError if absent), and emit it;
then always append the 12 ephemeral entries.  The function never looks at
any instance type. -/
def get_ec2_block_device_mappings (image : Image) :
    Except FlintrockException (List BlockDeviceMapping) := do
  let min_root_device_size_gb := 30
  let base ←
    if image.root_device_type = "ebs" then
      match image.block_device_mappings.filter
          (fun d => d.deviceName = image.root_device_name) with
      | [] => Except.error (.generic "IndexError: list index out of range")
      | root :: _ =>
        match root.ebs with
        | none => Except.error (.generic "KeyError: Ebs")
        | some e =>
          let e1 :=
            if e.volumeSize < min_root_device_size_gb then
              { e with
                  volumeSize := min_root_device_size_gb,
                  volumeType := "gp2" }
            else e
          match e1.encrypted with
          | none => Except.error (.generic "KeyError: Encrypted")
          | some _ =>
            Except.ok [BlockDeviceMapping.ebsDevice root.deviceName
              { e1 with encrypted := none }]
    else
      Except.ok []
  return base ++ ephemeral_devices

/-- Helper: dedup of a nonempty constant list is the singleton. -/
theorem dedup_const {l : List String} {s : String}
    (hne : l ≠ []) (hall : ∀ x ∈ l, x = s) : l.dedup = [s] := by
  induction l with
  | nil => exact absurd rfl hne
  | cons a t ih =>
    have ha : a = s := hall a (List.mem_cons_self a t)
    cases t with
    | nil => simp [List.dedup, ha]
    | cons b t2 =>
      have htail : (b :: t2).dedup = [s] := by
        refine ih (by simp) ?_
        intro x hx
        exact hall x (List.mem_cons_of_mem a hx)
      have hb : b = s := hall b (by simp)
      rw [List.dedup_cons_of_mem]
      · exact htail
      · have : s ∈ (b :: t2).dedup := by rw [htail]; simp
        rw [List.mem_dedup] at this
        simpa [ha] using this

/-- C1: the aggregate cluster state equals the shared state value when every
instance (master and all slaves) reports the same state, and equals the
sentinel string `inconsistent` whenever two instances report distinct
states. -/
theorem claim_C1_aggregate_state (c : EC2Cluster) (s : String) :
    ((∀ i ∈ c.instances, i.stateName = s) → c.state = s) ∧
    ((∃ i ∈ c.instances, ∃ j ∈ c.instances, i.stateName ≠ j.stateName) →
      c.state = "inconsistent") := by
  constructor
  · intro hall
    have hne : c.instances.map Instance.stateName ≠ [] := by
      simp [EC2Cluster.instances]
    have hconst : ∀ x ∈ c.instances.map Instance.stateName, x = s := by
      intro x hx
      rcases List.mem_map.mp hx with ⟨i, hi, rfl⟩
      exact hall i hi
    unfold EC2Cluster.state
    rw [dedup_const hne hconst]
  · rintro ⟨i, hi, j, hj, hij⟩
    unfold EC2Cluster.state
    rcases hd : (c.instances.map Instance.stateName).dedup with _ | ⟨a, _ | ⟨b, t⟩⟩
    · rfl
    · exfalso
      have hmemi : i.stateName ∈ (c.instances.map Instance.stateName).dedup := by
        rw [List.mem_dedup]; exact List.mem_map.mpr ⟨i, hi, rfl⟩
      have hmemj : j.stateName ∈ (c.instances.map Instance.stateName).dedup := by
        rw [List.mem_dedup]; exact List.mem_map.mpr ⟨j, hj, rfl⟩
      rw [hd] at hmemi hmemj
      simp at hmemi hmemj
      exact hij (hmemi.trans hmemj.symm)
    · rfl

/-- Witness for C1 at concrete clusters: an all-running cluster reports
`running`; a cluster with a running master and a stopped slave reports
`inconsistent`. -/
theorem claim_C1_aggregate_state_witness :
    (EC2Cluster.mk "t" "us-east-1" "vpc-1"
      (Instance.mk "i-m" "running" [])
      [Instance.mk "i-s" "running" []]).state = "running" ∧
    (EC2Cluster.mk "t" "us-east-1" "vpc-1"
      (Instance.mk "i-m" "running" [])
      [Instance.mk "i-s" "stopped" []]).state = "inconsistent" := by
  constructor
  · exact (claim_C1_aggregate_state _ "running").1 (by decide)
  · exact (claim_C1_aggregate_state _ "running").2
      ⟨Instance.mk "i-m" "running" [], by simp [EC2Cluster.instances],
       Instance.mk "i-s" "stopped" [], by simp [EC2Cluster.instances], by decide⟩

/-- C2: `start` on a cluster whose aggregate state is `running` raises
`NothingToDo`, and `stop` on a cluster whose aggregate state is
`inconsistent` raises `ClusterInvalidState`; in both cases the guard runs
before any provider call, so the trace of issued calls is empty and no
instance is touched. -/
theorem claim_C2_lifecycle_guards (c : EC2Cluster)
    (env : List (List Instance)) :
    (c.state = "running" →
      c.start env = .err (.nothingToDo "Cluster is already running.") []) ∧
    (c.state = "inconsistent" →
      c.stop env = .err (.clusterInvalidState "stop" "inconsistent") []) := by
  constructor
  · intro h
    simp [EC2Cluster.start, EC2Cluster.start_check, h]
  · intro h
    simp [EC2Cluster.stop, EC2Cluster.stop_check, h]

/-- Witness for C2: a concrete all-running cluster refuses `start` with
`NothingToDo` and empty trace, and a concrete inconsistent cluster (running
master, stopped slave) refuses `stop` with `ClusterInvalidState` and empty
trace. -/
theorem claim_C2_lifecycle_guards_witness :
    (EC2Cluster.mk "t" "us-east-1" "vpc-1"
        (Instance.mk "i-m" "running" []) [Instance.mk "i-s" "running" []]).start
        [] = .err (.nothingToDo "Cluster is already running.") [] ∧
    (EC2Cluster.mk "t" "us-east-1" "vpc-1"
        (Instance.mk "i-m" "running" []) [Instance.mk "i-s" "stopped" []]).stop
        [] = .err (.clusterInvalidState "stop" "inconsistent") [] := by
  constructor
  · exact (claim_C2_lifecycle_guards _ []).1 (by decide)
  · exact (claim_C2_lifecycle_guards _ []).2 (by decide)

/-- C3: for every EBS-backed image whose declared root volume size is below
the 30 GB floor and carries an Encrypted flag, block-device planning returns
the root entry resized to exactly 30 GB with volume type `gp2` and the
Encrypted key stripped, followed by exactly the 12 ephemeral entries, 13
entries in total.  The function takes no instance type at all, so the result
is independent of it. -/
theorem claim_C3_block_device_planning (image : Image) (root : ImageDevice)
    (others : List ImageDevice) (e : Ebs) (enc : Bool)
    (htype : image.root_device_type = "ebs")
    (hfilter : image.block_device_mappings.filter
        (fun d => d.deviceName = image.root_device_name) = root :: others)
    (hebs : root.ebs = some e)
    (hsize : e.volumeSize < 30)
    (henc : e.encrypted = some enc) :
    get_ec2_block_device_mappings image =
      .ok (BlockDeviceMapping.ebsDevice root.deviceName
            { volumeSize := 30, volumeType := "gp2", encrypted := none } ::
          ephemeral_devices) ∧
    ephemeral_devices.length = 12 ∧
    (BlockDeviceMapping.ebsDevice root.deviceName
        { volumeSize := 30, volumeType := "gp2", encrypted := none } ::
      ephemeral_devices).length = 13 := by
  refine ⟨?_, by decide, rfl⟩
  simp [get_ec2_block_device_mappings, htype, hfilter, hebs, hsize, henc]

/-- Witness for C3: a concrete EBS image with an 8 GB encrypted root device
plans a 30 GB unencrypted gp2 root plus the 12 ephemeral entries. -/
theorem claim_C3_block_device_planning_witness :
    get_ec2_block_device_mappings
      (Image.mk "ebs" "/dev/xvda"
        [ImageDevice.mk "/dev/xvda" (some (Ebs.mk 8 "standard" (some true)))]) =
      .ok (BlockDeviceMapping.ebsDevice "/dev/xvda"
            { volumeSize := 30, volumeType := "gp2", encrypted := none } ::
          ephemeral_devices) :=
  (claim_C3_block_device_planning
    (Image.mk "ebs" "/dev/xvda"
      [ImageDevice.mk "/dev/xvda" (some (Ebs.mk 8 "standard" (some true)))])
    (ImageDevice.mk "/dev/xvda" (some (Ebs.mk 8 "standard" (some true))))
    [] (Ebs.mk 8 "standard" (some true)) true
    (by decide) (by decide) (by decide) (by decide) (by decide)).1

/-- C5 counterexample: with a failing cleanup call (for example the spot
cancellation call itself raising), the launch exception handler surfaces the
cleanup exception, not the original launch failure — so the original cause
IS masked, contradicting the claim that it never is. -/
theorem claim_C5_counterexample :
    launch_cleanup_reraise (.generic "Launch failure")
        [Except.error (.generic "cancel_spot_instance_requests failed")] =
      .generic "cancel_spot_instance_requests failed" ∧
    FlintrockException.generic "cancel_spot_instance_requests failed" ≠
      FlintrockException.generic "Launch failure" := by
  constructor
  · rfl
  · decide

/-- C5 amended: whenever every cleanup call of the rollback handler completes
without raising, the handler re-raises exactly the original failure; a
cleanup call that itself raises propagates instead and masks the original
cause. -/
theorem claim_C5_reraise_after_clean_cleanup (original : FlintrockException)
    (cleanup_calls : List (Except FlintrockException Unit))
    (h : ∀ s ∈ cleanup_calls, s = .ok ()) :
    launch_cleanup_reraise original cleanup_calls = original := by
  unfold launch_cleanup_reraise
  have hnone : cleanup_calls.findSome?
      (fun s => match s with | .error e => some e | .ok _ => none) = none := by
    rw [List.findSome?_eq_none_iff]
    intro x hx
    rw [h x hx]
  rw [hnone]

/-- Witness for the amended C5: a concrete interrupted launch whose two
cleanup calls both complete re-raises the original failure. -/
theorem claim_C5_reraise_after_clean_cleanup_witness :
    launch_cleanup_reraise .keyboardInterrupt [.ok (), .ok ()] =
      .keyboardInterrupt :=
  claim_C5_reraise_after_clean_cleanup .keyboardInterrupt [.ok (), .ok ()]
    (by simp)

/-- Helper: whenever `wait_for_state` returns normally, every instance of the
returned cluster reports exactly the target state (the loop re-checks the
refreshed instances before exiting). -/
theorem wait_for_state_ok_target (target : String)
    (env : List (List Instance)) :
    ∀ (c c2 : EC2Cluster) (tr : List EC2Action),
      c.wait_for_state target env = .ok c2 tr →
      ∀ i ∈ c2.instances, i.stateName = target := by
  induction env with
  | nil =>
    intro c c2 tr h i hi
    unfold EC2Cluster.wait_for_state at h
    by_cases hall : c.instances.all (fun i => i.stateName = target) = true
    · rw [if_pos hall] at h
      injection h with h1 h2
      subst h1
      simp only [List.all_eq_true, decide_eq_true_eq] at hall
      exact hall i hi
    · rw [if_neg hall] at h
      simp at h
  | cons snap rest ih =>
    intro c c2 tr h i hi
    unfold EC2Cluster.wait_for_state at h
    by_cases hall : c.instances.all (fun i => i.stateName = target) = true
    · rw [if_pos hall] at h
      injection h with h1 h2
      subst h1
      simp only [List.all_eq_true, decide_eq_true_eq] at hall
      exact hall i hi
    · rw [if_neg hall] at h
      simp only at h
      cases hg : _get_cluster_master_slaves snap with
      | error e => rw [hg] at h; simp at h
      | ok ms =>
        obtain ⟨m, s⟩ := ms
        rw [hg] at h
        simp only at h
        cases hw : EC2Cluster.wait_for_state
            { c with master_instance := m, slave_instances := s } target rest with
        | ok c3 tr3 =>
          rw [hw] at h
          simp only at h
          injection h with h1 h2
          subst h1
          exact ih _ c3 tr3 hw i hi
        | err e tr3 => rw [hw] at h; simp at h
        | hang tr3 => rw [hw] at h; simp at h

/-- Helper: every action a `wait_for_state` run issues is a batched describe
call (the loop performs no mutating provider call). -/
theorem wait_for_state_trace_describe (target : String)
    (env : List (List Instance)) :
    ∀ (c : EC2Cluster) (a : EC2Action),
      a ∈ (c.wait_for_state target env).trace →
      ∃ ids, a = EC2Action.describeInstances ids := by
  induction env with
  | nil =>
    intro c a ha
    unfold EC2Cluster.wait_for_state at ha
    by_cases hall : c.instances.all (fun i => i.stateName = target) = true
    · rw [if_pos hall] at ha; simp [RunResult.trace] at ha
    · rw [if_neg hall] at ha; simp [RunResult.trace] at ha
  | cons snap rest ih =>
    intro c a ha
    unfold EC2Cluster.wait_for_state at ha
    by_cases hall : c.instances.all (fun i => i.stateName = target) = true
    · rw [if_pos hall] at ha; simp [RunResult.trace] at ha
    · rw [if_neg hall] at ha
      simp only at ha
      cases hg : _get_cluster_master_slaves snap with
      | error e =>
        rw [hg] at ha
        simp only [RunResult.trace, List.mem_singleton] at ha
        exact ⟨_, ha⟩
      | ok ms =>
        obtain ⟨m, s⟩ := ms
        rw [hg] at ha
        simp only at ha
        cases hw : EC2Cluster.wait_for_state
            { c with master_instance := m, slave_instances := s } target rest with
        | ok c3 tr3 =>
          rw [hw] at ha
          simp only [RunResult.trace, List.mem_cons] at ha
          rcases ha with h1 | h2
          · exact ⟨_, h1⟩
          · exact ih _ a (by rw [hw]; exact h2)
        | err e tr3 =>
          rw [hw] at ha
          simp only [RunResult.trace, List.mem_cons] at ha
          rcases ha with h1 | h2
          · exact ⟨_, h1⟩
          · exact ih _ a (by rw [hw]; exact h2)
        | hang tr3 =>
          rw [hw] at ha
          simp only [RunResult.trace, List.mem_cons] at ha
          rcases ha with h1 | h2
          · exact ⟨_, h1⟩
          · exact ih _ a (by rw [hw]; exact h2)

/-- C7: when every tracked instance already reports exactly the target state,
`wait_for_state` returns immediately with an empty call trace — the
convergence check reads the cached instance metadata, so not even one
describe call is issued, well within the claimed bound of at most one
confirming describe; and in general, whenever the loop terminates normally,
every instance of the returned cluster reports exactly the target state. -/
theorem claim_C7_wait_for_state_idempotent (target : String) (c : EC2Cluster)
    (env : List (List Instance)) :
    ((∀ i ∈ c.instances, i.stateName = target) →
      c.wait_for_state target env = .ok c []) ∧
    (∀ c2 tr, c.wait_for_state target env = .ok c2 tr →
      ∀ i ∈ c2.instances, i.stateName = target) := by
  constructor
  · intro h
    have hall : c.instances.all (fun i => i.stateName = target) = true := by
      simp only [List.all_eq_true, decide_eq_true_eq]
      exact h
    unfold EC2Cluster.wait_for_state
    rw [if_pos hall]
  · exact fun c2 tr h => wait_for_state_ok_target target env c c2 tr h

/-- Witness for C7: a concrete already-running cluster, re-invoked with a
provider snapshot available, returns at once with an empty trace. -/
theorem claim_C7_wait_for_state_idempotent_witness :
    EC2Cluster.wait_for_state
      (EC2Cluster.mk "t" "us-east-1" "vpc-1"
        (Instance.mk "i-m" "running" []) [Instance.mk "i-s" "running" []])
      "running" [[Instance.mk "i-m" "running" []]] =
    RunResult.ok
      (EC2Cluster.mk "t" "us-east-1" "vpc-1"
        (Instance.mk "i-m" "running" []) [Instance.mk "i-s" "running" []])
      [] :=
  (claim_C7_wait_for_state_idempotent "running"
    (EC2Cluster.mk "t" "us-east-1" "vpc-1"
      (Instance.mk "i-m" "running" []) [Instance.mk "i-s" "running" []])
    [[Instance.mk "i-m" "running" []]]).1 (by decide)

/-- Helper: the destroy trace characterized by position: the generic teardown
hook, the base-group lookup, one group-detach call per instance (positions 2
to 1 + n), the cluster-group lookup, the cluster-group deletion (position
3 + n), and the single batched terminate call (position 4 + n). -/
theorem destroy_getElem (c : EC2Cluster) (b : String) (j : Nat) :
    (c.destroy b)[j]? =
      if j = 0 then some EC2Action.genericClusterDestroy
      else if j = 1 then
        some (EC2Action.describeSecurityGroups "flintrock" c.vpc_id)
      else if j < 2 + c.instances.length then
        (c.instances[j - 2]?).map
          (fun i => EC2Action.modifyInstanceGroups i.id [b])
      else if j = 2 + c.instances.length then
        some (EC2Action.describeSecurityGroups ("flintrock-" ++ c.name)
          c.vpc_id)
      else if j = 3 + c.instances.length then
        some (EC2Action.deleteSecurityGroup ("flintrock-" ++ c.name))
      else if j = 4 + c.instances.length then
        some (EC2Action.terminateInstances (c.instances.map Instance.id))
      else none := by
  unfold EC2Cluster.destroy
  match j with
  | 0 => rfl
  | 1 => rfl
  | (k + 2) =>
    simp only [List.getElem?_cons_succ]
    rw [List.getElem?_append]
    simp only [List.length_map]
    by_cases hk : k < c.instances.length
    · rw [if_pos hk]
      rw [List.getElem?_map]
      rw [if_neg (by omega), if_neg (by omega), if_pos (by omega)]
      simp
    · rw [if_neg hk]
      obtain ⟨m, rfl⟩ : ∃ m, k = c.instances.length + m :=
        ⟨k - c.instances.length, by omega⟩
      rw [Nat.add_sub_cancel_left]
      match m with
      | 0 =>
        rw [if_neg (by omega), if_neg (by omega), if_neg (by omega),
          if_pos (by omega)]
        rfl
      | 1 =>
        rw [if_neg (by omega), if_neg (by omega), if_neg (by omega),
          if_neg (by omega), if_pos (by omega)]
        rfl
      | 2 =>
        rw [if_neg (by omega), if_neg (by omega), if_neg (by omega),
          if_neg (by omega), if_neg (by omega), if_pos (by omega)]
        rfl
      | (d + 3) =>
        rw [if_neg (by omega), if_neg (by omega), if_neg (by omega),
          if_neg (by omega), if_neg (by omega), if_neg (by omega)]
        simp

/-- C8: in the destroy trace, a group-detach call (reattaching the instance
to the base policy alone) occurs for every instance, all of them at positions
strictly before the cluster-policy deletion, and the deletion occurs strictly
before the single batched terminate call: the detach calls occupy exactly the
positions 2..1 + n, every deletion occurrence sits at position 3 + n, and
every terminate occurrence sits at position 4 + n. -/
theorem claim_C8_destroy_order (c : EC2Cluster) (b : String) :
    (∀ k, k < c.instances.length →
      (c.destroy b)[2 + k]? =
        (c.instances[k]?).map
          (fun i => EC2Action.modifyInstanceGroups i.id [b])) ∧
    (c.destroy b)[3 + c.instances.length]? =
      some (EC2Action.deleteSecurityGroup ("flintrock-" ++ c.name)) ∧
    (c.destroy b)[4 + c.instances.length]? =
      some (EC2Action.terminateInstances (c.instances.map Instance.id)) ∧
    (∀ j iid g, (c.destroy b)[j]? =
        some (EC2Action.modifyInstanceGroups iid g) →
      2 ≤ j ∧ j < 2 + c.instances.length) ∧
    (∀ j g, (c.destroy b)[j]? = some (EC2Action.deleteSecurityGroup g) →
      j = 3 + c.instances.length) ∧
    (∀ j ids, (c.destroy b)[j]? = some (EC2Action.terminateInstances ids) →
      j = 4 + c.instances.length) := by
  refine ⟨?_, ?_, ?_, ?_, ?_, ?_⟩
  · intro k hk
    rw [destroy_getElem]
    rw [if_neg (by omega), if_neg (by omega), if_pos (by omega)]
    simp
  · rw [destroy_getElem]
    rw [if_neg (by omega), if_neg (by omega), if_neg (by omega),
      if_neg (by omega), if_pos (by omega)]
  · rw [destroy_getElem]
    rw [if_neg (by omega), if_neg (by omega), if_neg (by omega),
      if_neg (by omega), if_neg (by omega), if_pos (by omega)]
  · intro j iid g h
    rw [destroy_getElem] at h
    split_ifs at h with h0 h1 h2 h3 h4 h5
    all_goals try omega
    all_goals simp at h
  · intro j g h
    rw [destroy_getElem] at h
    split_ifs at h with h0 h1 h2 h3 h4 h5
    all_goals try omega
    all_goals simp at h
  · intro j ids h
    rw [destroy_getElem] at h
    split_ifs at h with h0 h1 h2 h3 h4 h5
    all_goals try omega
    all_goals simp at h

/-- Witness for C8 on a concrete two-instance cluster: the detach call for
the master sits at position 2, the cluster-policy deletion at position 5, and
the batched terminate at position 6. -/
theorem claim_C8_destroy_order_witness :
    (0 < (EC2Cluster.instances (EC2Cluster.mk "t" "us-east-1" "vpc-1"
        (Instance.mk "i-m" "running" [])
        [Instance.mk "i-s" "running" []])).length) ∧
    ((EC2Cluster.mk "t" "us-east-1" "vpc-1"
        (Instance.mk "i-m" "running" [])
        [Instance.mk "i-s" "running" []]).destroy "sg-base")[2 + 0]? =
      some (EC2Action.modifyInstanceGroups "i-m" ["sg-base"]) := by
  constructor
  · decide
  · have h := (claim_C8_destroy_order
      (EC2Cluster.mk "t" "us-east-1" "vpc-1"
        (Instance.mk "i-m" "running" []) [Instance.mk "i-s" "running" []])
      "sg-base").1 0 (by decide)
    simpa using h

/-- A concrete running two-instance cluster with proper role tags. -/
def c9_running : EC2Cluster :=
  EC2Cluster.mk "t" "us-east-1" "vpc-1"
    (Instance.mk "i-m" "running" [Tag.mk "flintrock-role" "master"])
    [Instance.mk "i-s" "running" [Tag.mk "flintrock-role" "slave"]]

/-- A provider environment whose single describe response reports both
instances stopped. -/
def c9_env_stopped : List (List Instance) :=
  [[Instance.mk "i-m" "stopped" [Tag.mk "flintrock-role" "master"],
    Instance.mk "i-s" "stopped" [Tag.mk "flintrock-role" "slave"]]]

/-- C9 counterexample: on a concrete running cluster, `stop` issues the
generic service-layer stop hook as its FIRST action, before the batched
provider stop call and before the converger's describe — the provider call
is not issued first, refuting the claimed order for `stop`. -/
theorem claim_C9_counterexample :
    c9_running.stop c9_env_stopped =
      .ok (EC2Cluster.mk "t" "us-east-1" "vpc-1"
            (Instance.mk "i-m" "stopped" [Tag.mk "flintrock-role" "master"])
            [Instance.mk "i-s" "stopped" [Tag.mk "flintrock-role" "slave"]])
        [EC2Action.genericClusterStop,
         EC2Action.stopInstances ["i-m", "i-s"],
         EC2Action.describeInstances ["i-m", "i-s"]] ∧
    EC2Action.genericClusterStop ≠ EC2Action.stopInstances ["i-m", "i-s"] := by
  constructor
  · rfl
  · decide

/-- C9 amended: a `start` that passes its guard and converges issues the
batched provider start call first, then only describe calls from the State
Converger, then the generic service-layer start hook last; a `stop` that
passes its guard instead invokes the generic service-layer stop hook FIRST,
then the batched provider stop call, then only the converger's describe
calls. -/
theorem claim_C9_start_stop_order (c : EC2Cluster)
    (env : List (List Instance)) (c2 : EC2Cluster) (tr : List EC2Action) :
    (c.start env = .ok c2 tr →
      ∃ w, tr = EC2Action.startInstances (c.instances.map Instance.id) ::
          (w ++ [EC2Action.genericClusterStart]) ∧
        ∀ a ∈ w, ∃ ids, a = EC2Action.describeInstances ids) ∧
    (c.stop env = .ok c2 tr →
      ∃ w, tr = EC2Action.genericClusterStop ::
          EC2Action.stopInstances (c.instances.map Instance.id) :: w ∧
        ∀ a ∈ w, ∃ ids, a = EC2Action.describeInstances ids) := by
  constructor
  · intro h
    unfold EC2Cluster.start at h
    cases hc : c.start_check with
    | error e => rw [hc] at h; simp at h
    | ok u =>
      rw [hc] at h
      simp only at h
      cases hw : c.wait_for_state "running" env with
      | ok c3 tr3 =>
        rw [hw] at h
        simp only at h
        injection h with h1 h2
        refine ⟨tr3, h2.symm, ?_⟩
        intro a ha
        exact wait_for_state_trace_describe "running" env c a
          (by rw [hw]; exact ha)
      | err e tr3 => rw [hw] at h; simp at h
      | hang tr3 => rw [hw] at h; simp at h
  · intro h
    unfold EC2Cluster.stop at h
    cases hc : c.stop_check with
    | error e => rw [hc] at h; simp at h
    | ok u =>
      rw [hc] at h
      simp only at h
      cases hw : c.wait_for_state "stopped" env with
      | ok c3 tr3 =>
        rw [hw] at h
        simp only at h
        injection h with h1 h2
        refine ⟨tr3, h2.symm, ?_⟩
        intro a ha
        exact wait_for_state_trace_describe "stopped" env c a
          (by rw [hw]; exact ha)
      | err e tr3 => rw [hw] at h; simp at h
      | hang tr3 => rw [hw] at h; simp at h

/-- A concrete stopped two-instance cluster with proper role tags. -/
def c9_stopped : EC2Cluster :=
  EC2Cluster.mk "t" "us-east-1" "vpc-1"
    (Instance.mk "i-m" "stopped" [Tag.mk "flintrock-role" "master"])
    [Instance.mk "i-s" "stopped" [Tag.mk "flintrock-role" "slave"]]

/-- A provider environment whose single describe response reports both
instances running. -/
def c9_env_running : List (List Instance) :=
  [[Instance.mk "i-m" "running" [Tag.mk "flintrock-role" "master"],
    Instance.mk "i-s" "running" [Tag.mk "flintrock-role" "slave"]]]

/-- Witness for the amended C9: on a concrete stopped cluster that converges
after one describe, the start trace is exactly provider start call, one
describe, then the generic start hook. -/
theorem claim_C9_start_stop_order_witness :
    ∃ w, ([EC2Action.startInstances ["i-m", "i-s"],
           EC2Action.describeInstances ["i-m", "i-s"],
           EC2Action.genericClusterStart] : List EC2Action) =
        EC2Action.startInstances (c9_stopped.instances.map Instance.id) ::
          (w ++ [EC2Action.genericClusterStart]) ∧
      ∀ a ∈ w, ∃ ids, a = EC2Action.describeInstances ids :=
  (claim_C9_start_stop_order c9_stopped c9_env_running
    (EC2Cluster.mk "t" "us-east-1" "vpc-1"
      (Instance.mk "i-m" "running" [Tag.mk "flintrock-role" "master"])
      [Instance.mk "i-s" "running" [Tag.mk "flintrock-role" "slave"]])
    [EC2Action.startInstances ["i-m", "i-s"],
     EC2Action.describeInstances ["i-m", "i-s"],
     EC2Action.genericClusterStart]).1 (by decide)

/-- Helper: when the pending ids entering an iteration are exactly the ids of
the open requests of the current describe response, a normal exit of the spot
poll loop leaves no request in state `open`. -/
theorem launch_spot_poll_no_open (polls : List (List SpotRequest)) :
    ∀ (sr final : List SpotRequest),
      launch_spot_poll polls sr
          ((sr.filter (fun r => r.state = "open")).map SpotRequest.id) =
        some (.ok final) →
      ∀ r ∈ final, r.state ≠ "open" := by
  induction polls with
  | nil =>
    intro sr final h r hr hopen
    unfold launch_spot_poll at h
    cases hp : (sr.filter (fun r => r.state = "open")).map SpotRequest.id with
    | nil =>
      rw [hp] at h
      simp only [Option.some.injEq, Except.ok.injEq] at h
      subst h
      have : r ∈ sr.filter (fun r => r.state = "open") := by
        rw [List.mem_filter]
        exact ⟨hr, by simp [hopen]⟩
      rw [List.map_eq_nil_iff] at hp
      rw [hp] at this
      simp at this
    | cons p ps =>
      rw [hp] at h
      simp at h
  | cons poll rest ih =>
    intro sr final h r hr
    unfold launch_spot_poll at h
    cases hp : (sr.filter (fun r => r.state = "open")).map SpotRequest.id with
    | nil =>
      rw [hp] at h
      simp only [Option.some.injEq, Except.ok.injEq] at h
      subst h
      intro hopen
      have hmem : r ∈ sr.filter (fun r => r.state = "open") := by
        rw [List.mem_filter]
        exact ⟨hr, by simp [hopen]⟩
      rw [List.map_eq_nil_iff] at hp
      rw [hp] at hmem
      simp at hmem
    | cons p ps =>
      rw [hp] at h
      simp only at h
      by_cases hf : (poll.filter (fun r => r.state = "failed")).isEmpty = true
      · rw [if_pos hf] at h
        exact ih poll final h r hr
      · rw [if_neg hf] at h
        simp at h

/-- C4: during a spot launch, while requests are pending, a poll whose
describe response contains at least one request in state `failed` makes the
loop abort with an error carrying exactly the distinct failure Status Codes
(the reason list has no duplicates and contains precisely the codes of the
failed requests of that poll); and the loop exits successfully only when no
described request remains in state `open`. -/
theorem claim_C4_spot_poll_failure (polls : List (List SpotRequest))
    (spot_requests : List SpotRequest) (pending : List String)
    (poll : List SpotRequest) (rest : List (List SpotRequest)) :
    (pending ≠ [] → polls = poll :: rest →
      (∃ r ∈ poll, r.state = "failed") →
      launch_spot_poll polls spot_requests pending =
        some (.error ((poll.filter (fun r => r.state = "failed")).map
          SpotRequest.statusCode).dedup) ∧
      ((poll.filter (fun r => r.state = "failed")).map
          SpotRequest.statusCode).dedup.Nodup ∧
      (∀ code, code ∈ ((poll.filter (fun r => r.state = "failed")).map
          SpotRequest.statusCode).dedup ↔
        ∃ r ∈ poll, r.state = "failed" ∧ r.statusCode = code)) ∧
    (pending ≠ [] →
      ∀ final, launch_spot_poll polls spot_requests pending =
          some (.ok final) →
        ∀ r ∈ final, r.state ≠ "open") := by
  constructor
  · intro hp hpolls hex
    subst hpolls
    cases pending with
    | nil => exact absurd rfl hp
    | cons p ps =>
      have hfne : ¬(poll.filter (fun r => r.state = "failed")).isEmpty = true := by
        obtain ⟨r, hr, hst⟩ := hex
        rw [List.isEmpty_iff]
        intro hnil
        have : r ∈ poll.filter (fun r => r.state = "failed") := by
          rw [List.mem_filter]
          exact ⟨hr, by simp [hst]⟩
        rw [hnil] at this
        simp at this
      refine ⟨?_, List.nodup_dedup _, ?_⟩
      · unfold launch_spot_poll
        simp only
        rw [if_neg hfne]
      · intro code
        rw [List.mem_dedup, List.mem_map]
        constructor
        · rintro ⟨r, hr, rfl⟩
          rw [List.mem_filter] at hr
          exact ⟨r, hr.1, by simpa using hr.2, rfl⟩
        · rintro ⟨r, hr, hst, rfl⟩
          exact ⟨r, by rw [List.mem_filter]; exact ⟨hr, by simp [hst]⟩, rfl⟩
  · intro hp final h r hr
    cases pending with
    | nil => exact absurd rfl hp
    | cons p ps =>
      unfold launch_spot_poll at h
      cases polls with
      | nil => simp at h
      | cons poll2 rest2 =>
        simp only at h
        by_cases hf :
            (poll2.filter (fun r => r.state = "failed")).isEmpty = true
        · rw [if_pos hf] at h
          exact launch_spot_poll_no_open rest2 poll2 final h r hr
        · rw [if_neg hf] at h
          simp at h

/-- The single poll response of the concrete C4 witness scenario: one
fulfilled request and one failed request. -/
def c4_poll : List SpotRequest :=
  [SpotRequest.mk "sir-1" "active" "fulfilled" (some "i-1"),
   SpotRequest.mk "sir-2" "failed" "capacity-not-available" none]

/-- The initial describe response of the concrete C4 witness scenario: both
requests still open. -/
def c4_initial : List SpotRequest :=
  [SpotRequest.mk "sir-1" "open" "pending-evaluation" none,
   SpotRequest.mk "sir-2" "open" "pending-evaluation" none]

/-- Witness for C4: in the concrete scenario the poll loop aborts with the
single distinct failure reason of the failed request, and a loop that exits
successfully on an all-active response leaves its fulfilled request not
`open`. -/
theorem claim_C4_spot_poll_failure_witness :
    launch_spot_poll [c4_poll] c4_initial ["sir-1", "sir-2"] =
      some (.error ["capacity-not-available"]) ∧
    (SpotRequest.mk "sir-1" "active" "fulfilled" (some "i-1")).state ≠
      "open" := by
  constructor
  · exact (((claim_C4_spot_poll_failure [c4_poll] c4_initial
      ["sir-1", "sir-2"] c4_poll []).1 (by decide) rfl
      (by decide)).1).trans (by decide)
  · exact (claim_C4_spot_poll_failure
      [[SpotRequest.mk "sir-1" "active" "fulfilled" (some "i-1")]]
      c4_initial ["sir-1", "sir-2"]
      [SpotRequest.mk "sir-1" "active" "fulfilled" (some "i-1")] []).2
      (by decide)
      [SpotRequest.mk "sir-1" "active" "fulfilled" (some "i-1")]
      (by decide)
      (SpotRequest.mk "sir-1" "active" "fulfilled" (some "i-1"))
      (by decide)

/-- Bool predicate: the tag list contains a `flintrock-role` tag whose value
is `v` (the scan reaches the corresponding branch for such a tag). -/
def has_role (v : String) (tags : List Tag) : Bool :=
  tags.any (fun t => t.key = "flintrock-role" ∧ t.value = v)

/-- Helper: what the tag scan can return for the master slot: either the tag
list carries no master role tag and the master slot is unchanged, or the slot
was empty and the scanned instance fills it. -/
theorem role_tag_scan_ok_master (inst : Instance) (m : Option Instance) :
    ∀ (tags : List Tag) (s : List Instance) (m2 : Option Instance)
      (s2 : List Instance),
      role_tag_scan inst m s tags = .ok (m2, s2) →
      (has_role "master" tags = false ∧ m2 = m) ∨
      (m = none ∧ m2 = some inst ∧ has_role "master" tags = true) := by
  intro tags
  induction tags with
  | nil =>
    intro s m2 s2 h
    unfold role_tag_scan at h
    simp only [Except.ok.injEq, Prod.mk.injEq] at h
    left
    exact ⟨by simp [has_role], h.1.symm⟩
  | cons t rest ih =>
    intro s m2 s2 h
    unfold role_tag_scan at h
    by_cases hk : t.key = "flintrock-role"
    · rw [if_pos hk] at h
      by_cases hv : t.value = "master"
      · rw [if_pos hv] at h
        cases m with
        | some x => simp at h
        | none =>
          simp only [Except.ok.injEq, Prod.mk.injEq] at h
          right
          refine ⟨rfl, h.1.symm, ?_⟩
          simp [has_role]
          exact Or.inl ⟨hk, hv⟩
      · rw [if_neg hv] at h
        have hhead : has_role "master" (t :: rest) = has_role "master" rest := by
          simp [has_role, hv]
        by_cases hv2 : t.value = "slave"
        · rw [if_pos hv2] at h
          rw [hhead]
          exact ih (s ++ [inst]) m2 s2 h
        · rw [if_neg hv2] at h
          rw [hhead]
          exact ih s m2 s2 h
    · rw [if_neg hk] at h
      have hhead : has_role "master" (t :: rest) = has_role "master" rest := by
        simp [has_role, hk]
      rw [hhead]
      exact ih s m2 s2 h

/-- Helper: an instance without any slave role tag never extends the slave
list. -/
theorem role_tag_scan_ok_no_slave (inst : Instance) (m : Option Instance) :
    ∀ (tags : List Tag) (s : List Instance) (m2 : Option Instance)
      (s2 : List Instance),
      has_role "slave" tags = false →
      role_tag_scan inst m s tags = .ok (m2, s2) →
      s2 = s := by
  intro tags
  induction tags with
  | nil =>
    intro s m2 s2 _ h
    unfold role_tag_scan at h
    simp only [Except.ok.injEq, Prod.mk.injEq] at h
    exact h.2.symm
  | cons t rest ih =>
    intro s m2 s2 hsl h
    unfold role_tag_scan at h
    by_cases hk : t.key = "flintrock-role"
    · rw [if_pos hk] at h
      by_cases hv : t.value = "master"
      · rw [if_pos hv] at h
        cases m with
        | some x => simp at h
        | none =>
          simp only [Except.ok.injEq, Prod.mk.injEq] at h
          exact h.2.symm
      · rw [if_neg hv] at h
        by_cases hv2 : t.value = "slave"
        · exfalso
          have : has_role "slave" (t :: rest) = true := by
            simp [has_role]
            exact Or.inl ⟨hk, hv2⟩
          rw [this] at hsl
          simp at hsl
        · rw [if_neg hv2] at h
          have htail : has_role "slave" rest = false := by
            simp [has_role] at hsl ⊢
            exact hsl.2
          exact ih s m2 s2 htail h
    · rw [if_neg hk] at h
      have htail : has_role "slave" rest = false := by
        simp [has_role] at hsl ⊢
        exact hsl.2
      exact ih s m2 s2 htail h

/-- Helper: an instance carrying neither a master nor a slave role tag is
skipped entirely by the tag scan: no error, no state change. -/
theorem role_tag_scan_skip (inst : Instance) (m : Option Instance) :
    ∀ (tags : List Tag) (s : List Instance),
      has_role "master" tags = false →
      has_role "slave" tags = false →
      role_tag_scan inst m s tags = .ok (m, s) := by
  intro tags
  induction tags with
  | nil =>
    intro s _ _
    rfl
  | cons t rest ih =>
    intro s hm hsl
    unfold role_tag_scan
    by_cases hk : t.key = "flintrock-role"
    · rw [if_pos hk]
      by_cases hv : t.value = "master"
      · exfalso
        have : has_role "master" (t :: rest) = true := by
          simp [has_role]
          exact Or.inl ⟨hk, hv⟩
        rw [this] at hm
        simp at hm
      · rw [if_neg hv]
        by_cases hv2 : t.value = "slave"
        · exfalso
          have : has_role "slave" (t :: rest) = true := by
            simp [has_role]
            exact Or.inl ⟨hk, hv2⟩
          rw [this] at hsl
          simp at hsl
        · rw [if_neg hv2]
          refine ih s ?_ ?_
          · simp [has_role] at hm ⊢
            exact hm.2
          · simp [has_role] at hsl ⊢
            exact hsl.2
    · rw [if_neg hk]
      refine ih s ?_ ?_
      · simp [has_role] at hm ⊢
        exact hm.2
      · simp [has_role] at hsl ⊢
        exact hsl.2

/-- master_flag counts an occupied master slot: 0 for none, 1 for some. -/
def master_flag : Option Instance → Nat
  | none => 0
  | some _ => 1

/-- Helper: across a successful instance scan, the number of master-tagged
instances processed plus the incoming master-slot occupancy equals the
outgoing master-slot occupancy (so at most one master-tagged instance can be
absorbed without an error). -/
theorem instances_scan_ok_count :
    ∀ (l : List Instance) (m : Option Instance) (s : List Instance)
      (m2 : Option Instance) (s2 : List Instance),
      instances_scan l m s = .ok (m2, s2) →
      l.countP (fun i => has_role "master" i.tags) + master_flag m =
        master_flag m2 := by
  intro l
  induction l with
  | nil =>
    intro m s m2 s2 h
    unfold instances_scan at h
    simp only [Except.ok.injEq, Prod.mk.injEq] at h
    rw [h.1]
    simp
  | cons i rest ih =>
    intro m s m2 s2 h
    unfold instances_scan at h
    cases hs : role_tag_scan i m s i.tags with
    | error e => rw [hs] at h; simp at h
    | ok ms =>
      obtain ⟨m1, s1⟩ := ms
      rw [hs] at h
      simp only at h
      have hih := ih m1 s1 m2 s2 h
      rcases role_tag_scan_ok_master i m i.tags s m1 s1 hs with
        ⟨hf, hm1⟩ | ⟨hm, hm1, ht⟩
      · subst hm1
        rw [List.countP_cons]
        simp [hf]
        omega
      · subst hm
        subst hm1
        rw [List.countP_cons]
        simp [ht, master_flag] at hih ⊢
        omega

/-- Helper: when no instance of the list carries a slave role tag, a
successful instance scan leaves the slave accumulator unchanged. -/
theorem instances_scan_ok_no_slave :
    ∀ (l : List Instance) (m : Option Instance) (s : List Instance)
      (m2 : Option Instance) (s2 : List Instance),
      (∀ i ∈ l, has_role "slave" i.tags = false) →
      instances_scan l m s = .ok (m2, s2) →
      s2 = s := by
  intro l
  induction l with
  | nil =>
    intro m s m2 s2 _ h
    unfold instances_scan at h
    simp only [Except.ok.injEq, Prod.mk.injEq] at h
    exact h.2.symm
  | cons i rest ih =>
    intro m s m2 s2 hall h
    unfold instances_scan at h
    cases hs : role_tag_scan i m s i.tags with
    | error e => rw [hs] at h; simp at h
    | ok ms =>
      obtain ⟨m1, s1⟩ := ms
      rw [hs] at h
      simp only at h
      have hs1 : s1 = s :=
        role_tag_scan_ok_no_slave i m i.tags s m1 s1
          (hall i (List.mem_cons_self i rest)) hs
      rw [hs1] at h
      exact ih m1 s m2 s2 (fun j hj => hall j (List.mem_cons_of_mem i hj)) h

/-- Helper: an instance with neither master nor slave role tag can be removed
from anywhere in the scanned list without changing the scan's outcome. -/
theorem instances_scan_skip (i : Instance)
    (hm : has_role "master" i.tags = false)
    (hsl : has_role "slave" i.tags = false) :
    ∀ (l1 l2 : List Instance) (m : Option Instance) (s : List Instance),
      instances_scan (l1 ++ i :: l2) m s = instances_scan (l1 ++ l2) m s := by
  intro l1
  induction l1 with
  | nil =>
    intro l2 m s
    simp only [List.nil_append]
    conv_lhs => unfold instances_scan
    rw [role_tag_scan_skip i m i.tags s hm hsl]
  | cons a l1t ih =>
    intro l2 m s
    simp only [List.cons_append]
    conv_lhs => unfold instances_scan
    conv_rhs => unfold instances_scan
    cases hs : role_tag_scan a m s a.tags with
    | error e => rfl
    | ok ms =>
      obtain ⟨m1, s1⟩ := ms
      simp only
      exact ih l2 m1 s1

/-- C6: whenever `_get_cluster_master_slaves` returns a cluster split, the
input contains exactly one master-tagged instance and the returned worker
list is nonempty; and every input with zero master-tagged instances, more
than one master-tagged instance, or zero slave-tagged instances makes the
construction fail with an error instead of returning a split. -/
theorem claim_C6_master_slave_invariant (l : List Instance) :
    (∀ m s, _get_cluster_master_slaves l = .ok (m, s) →
      l.countP (fun i => has_role "master" i.tags) = 1 ∧ s ≠ []) ∧
    ((l.countP (fun i => has_role "master" i.tags) = 0 ∨
      2 ≤ l.countP (fun i => has_role "master" i.tags) ∨
      l.countP (fun i => has_role "slave" i.tags) = 0) →
      ∃ e, _get_cluster_master_slaves l = .error e) := by
  constructor
  · intro m s h
    unfold _get_cluster_master_slaves at h
    cases hs : instances_scan l none [] with
    | error e => rw [hs] at h; simp at h
    | ok ms =>
      obtain ⟨mo, so⟩ := ms
      rw [hs] at h
      simp only at h
      cases mo with
      | none => simp at h
      | some mi =>
        simp only at h
        by_cases hemp : so.isEmpty = true
        · rw [if_pos hemp] at h; simp at h
        · rw [if_neg hemp] at h
          simp only [Except.ok.injEq, Prod.mk.injEq] at h
          have hc := instances_scan_ok_count l none [] (some mi) so hs
          constructor
          · simpa only [master_flag, Nat.add_zero] using hc
          · rw [← h.2]
            intro hnil
            rw [hnil] at hemp
            simp at hemp
  · intro hcase
    cases hs : instances_scan l none [] with
    | error e =>
      exact ⟨e, by unfold _get_cluster_master_slaves; rw [hs]⟩
    | ok ms =>
      obtain ⟨mo, so⟩ := ms
      have hc := instances_scan_ok_count l none [] mo so hs
      rcases hcase with h0 | h2 | hsl
      · cases mo with
        | none =>
          exact ⟨.generic "No master found.",
            by unfold _get_cluster_master_slaves; rw [hs]⟩
        | some x =>
          exfalso
          simp only [master_flag, Nat.add_zero] at hc
          omega
      · exfalso
        cases mo with
        | none => simp only [master_flag, Nat.add_zero] at hc; omega
        | some x => simp only [master_flag, Nat.add_zero] at hc; omega
      · have hall : ∀ i ∈ l, has_role "slave" i.tags = false := by
          intro i hi
          have := List.countP_eq_zero.mp hsl i hi
          simpa using this
        have hso : so = [] :=
          instances_scan_ok_no_slave l none [] mo so hall hs
        subst hso
        cases mo with
        | none =>
          exact ⟨.generic "No master found.",
            by unfold _get_cluster_master_slaves; rw [hs]⟩
        | some x =>
          exact ⟨.generic "No slaves found.",
            by unfold _get_cluster_master_slaves; rw [hs]; rfl⟩

/-- C10: an instance that carries no `flintrock-role` tag whose value is
`master`, and none whose value is `slave`, is silently skipped by the
master/worker re-derivation: removing it from anywhere in the input changes
nothing — it fills neither the master slot nor the worker list, raises no
error, and so contributes nothing to the reconstructed cluster or the
aggregate state derived from it. -/
theorem claim_C10_unknown_role_ignored (l1 l2 : List Instance) (i : Instance)
    (hm : has_role "master" i.tags = false)
    (hsl : has_role "slave" i.tags = false) :
    _get_cluster_master_slaves (l1 ++ i :: l2) =
      _get_cluster_master_slaves (l1 ++ l2) := by
  unfold _get_cluster_master_slaves
  rw [instances_scan_skip i hm hsl l1 l2 none []]

/-- Witness for C6 on concrete inputs: a proper master + slave pair yields a
split (so the input has exactly one master-tagged instance and a nonempty
worker list), and a two-master input yields an error. -/
theorem claim_C6_master_slave_invariant_witness :
    ([Instance.mk "i-m" "running" [Tag.mk "flintrock-role" "master"],
      Instance.mk "i-s" "running" [Tag.mk "flintrock-role" "slave"]].countP
        (fun i => has_role "master" i.tags) = 1 ∧
      ([Instance.mk "i-s" "running" [Tag.mk "flintrock-role" "slave"]] :
        List Instance) ≠ []) ∧
    (∃ e, _get_cluster_master_slaves
      [Instance.mk "i-1" "running" [Tag.mk "flintrock-role" "master"],
       Instance.mk "i-2" "running" [Tag.mk "flintrock-role" "master"]] =
      .error e) := by
  constructor
  · exact (claim_C6_master_slave_invariant
      [Instance.mk "i-m" "running" [Tag.mk "flintrock-role" "master"],
       Instance.mk "i-s" "running" [Tag.mk "flintrock-role" "slave"]]).1
      (Instance.mk "i-m" "running" [Tag.mk "flintrock-role" "master"])
      [Instance.mk "i-s" "running" [Tag.mk "flintrock-role" "slave"]]
      (by decide)
  · exact (claim_C6_master_slave_invariant
      [Instance.mk "i-1" "running" [Tag.mk "flintrock-role" "master"],
       Instance.mk "i-2" "running" [Tag.mk "flintrock-role" "master"]]).2
      (Or.inr (Or.inl (by decide)))

/-- Witness for C10: inserting a concrete instance bearing an unrelated tag
value between a tagged master and a tagged slave leaves the derived split
unchanged. -/
theorem claim_C10_unknown_role_ignored_witness :
    _get_cluster_master_slaves
      ([Instance.mk "i-m" "running" [Tag.mk "flintrock-role" "master"]] ++
        Instance.mk "i-x" "running" [Tag.mk "Name" "extra"] ::
        [Instance.mk "i-s" "running" [Tag.mk "flintrock-role" "slave"]]) =
    _get_cluster_master_slaves
      ([Instance.mk "i-m" "running" [Tag.mk "flintrock-role" "master"]] ++
        [Instance.mk "i-s" "running" [Tag.mk "flintrock-role" "slave"]]) :=
  claim_C10_unknown_role_ignored
    [Instance.mk "i-m" "running" [Tag.mk "flintrock-role" "master"]]
    [Instance.mk "i-s" "running" [Tag.mk "flintrock-role" "slave"]]
    (Instance.mk "i-x" "running" [Tag.mk "Name" "extra"])
    (by decide) (by decide)
